import Mathlib

set_option maxRecDepth 8000

/-!
Shallow embedding of `src/booster/src/main.c` (the Booster second-stage
updater): the validate-then-flash engine `fobooster_main`, its helpers
`error`, `erase_booster`, `finish_flashing` and `reboot`.

Bytes are `Nat`s, byte buffers are total functions `Nat → Nat` indexed by
byte offset, and machine integers are `Nat` with explicit reduction modulo
`2 ^ 32` wherever C `uint32_t` arithmetic can wrap.
-/

/-- `2 ^ 32`, the modulus of C `uint32_t` arithmetic. -/
def UINT32_MOD : Nat := 4294967296

/-- C `uint32_t` subtraction `a - b`, wrapping modulo `2 ^ 32`
(valid for operand values `a, b ≤ 2 ^ 32`). -/
def sub32 (a b : Nat) : Nat := (a + (UINT32_MOD - b)) % UINT32_MOD

/-- Modelled from the spec: `SPI_ERASE_SECTOR_SIZE` is defined in the SPI
driver header, which is not under `src/`; `main.c`'s comment "Erase one
4096-byte block" and the spec's erase-block description fix it at 4096. -/
def SPI_ERASE_SECTOR_SIZE : Nat := 4096

/-- Modelled from the spec: `SPI_PROGRAM_PAGE_SIZE` is defined in the SPI
driver header, which is not under `src/`; `main.c`'s comment "Program each
256-byte page" and the spec's program-page description fix it at 256. -/
def SPI_PROGRAM_PAGE_SIZE : Nat := 256

/-- `sizeof(cached_image)` in bytes: `static uint32_t cached_image[0x1a000/4]`. -/
def CACHED_IMAGE_BYTES : Nat := 0x1a000

/-- The literal address bound `131072` of the programming loop in
`fobooster_main` (the spec's `maxWritableOffset`). -/
def maxWritableOffset : Nat := 131072

/-- Modelled from the spec: `spiBeginErase4` (SPI driver, not under `src/`)
issues a NOR-flash sector erase, which leaves every byte of the 4096-byte
sector in the erased state `0xff`. -/
def ERASED_BYTE : Nat := 0xff

/-- One erase or program command issued to the non-volatile memory. -/
inductive FlashOp where
  | erase (addr : Nat)
  | prog (addr : Nat) (len : Nat)
deriving DecidableEq

/-- State of the programming loop of `fobooster_main`: the loop variables
`bytes_left` and `target_addr`, the offset `off` of `current_ptr` into
`cached_image`, the current flash contents, and the chronological list of
erase/program commands issued so far. -/
structure LoopState where
  bytes_left : Nat
  target_addr : Nat
  off : Nat
  flash : Nat → Nat
  trace : List FlashOp

/-- `memcmp(f + a, g + b, n) == 0`: the `n` bytes of `f` starting at `a`
equal the `n` bytes of `g` starting at `b`. -/
def memEq (f g : Nat → Nat) (a b n : Nat) : Bool :=
  match n with
  | 0 => true
  | n + 1 => (f a == g b) && memEq f g (a + 1) (b + 1) n

/-- Effect of `spiBeginWrite(a, ram + o, n)` on the flash contents:
bytes `[a, a + n)` now hold `ram [o, o + n)`. -/
def progWrite (f ram : Nat → Nat) (a o n : Nat) : Nat → Nat :=
  fun x => if a ≤ x ∧ x < a + n then ram (o + (x - a)) else f x

/-- Effect of `ftfl_begin_erase_sector(addr)` (via `spiBeginErase4`): the
whole 4096-byte sector containing `addr` becomes `ERASED_BYTE`. -/
def eraseSector (f : Nat → Nat) (addr : Nat) : Nat → Nat :=
  fun x =>
    if x / SPI_ERASE_SECTOR_SIZE = addr / SPI_ERASE_SECTOR_SIZE then ERASED_BYTE else f x

/-- `ftfl_begin_erase_sector(target_addr)` as a step on the loop state. -/
def eraseStep (s : LoopState) : LoopState :=
  { s with
    flash := eraseSector s.flash s.target_addr
    trace := s.trace ++ [FlashOp.erase s.target_addr] }

/-- Body of the page-programming `for` loop:
`spiBeginWrite(target_addr, current_ptr, bytes_to_write);
current_ptr += SPI_PROGRAM_PAGE_SIZE; target_addr += SPI_PROGRAM_PAGE_SIZE;
bytes_left -= bytes_to_write;`. -/
def pageWrite (ram : Nat → Nat) (s : LoopState) (bytes_to_write : Nat) : LoopState :=
  { bytes_left := sub32 s.bytes_left bytes_to_write
    target_addr := s.target_addr + SPI_PROGRAM_PAGE_SIZE
    off := s.off + SPI_PROGRAM_PAGE_SIZE
    flash := progWrite s.flash ram s.target_addr s.off bytes_to_write
    trace := s.trace ++ [FlashOp.prog s.target_addr bytes_to_write] }

/-- The page-programming `for` loop
`for (page_offset = 0; bytes_left && (page_offset < SPI_ERASE_SECTOR_SIZE);
page_offset += SPI_PROGRAM_PAGE_SIZE)`. The structural argument `fuel`
counts the remaining page slots
`(SPI_ERASE_SECTOR_SIZE - page_offset) / SPI_PROGRAM_PAGE_SIZE`, so the
call below with `fuel = 16`, `page_offset = 0` runs the loop exactly. -/
def progPages (ram : Nat → Nat) : Nat → Nat → LoopState → LoopState
  | 0, _, s => s
  | fuel + 1, page_offset, s =>
    if s.bytes_left ≠ 0 ∧ page_offset < SPI_ERASE_SECTOR_SIZE then
      progPages ram fuel (page_offset + SPI_PROGRAM_PAGE_SIZE)
        (pageWrite ram s
          (if SPI_PROGRAM_PAGE_SIZE < s.bytes_left then SPI_PROGRAM_PAGE_SIZE
           else s.bytes_left))
    else s

/-- The outer `while (bytes_left && (target_addr < 131072))` loop of
`fobooster_main`: skip the sector if its current flash contents equal the
corresponding `cached_image` slice, otherwise erase it and program it
page by page. `fuel` bounds the number of iterations; every iteration
advances `target_addr` by at least `SPI_PROGRAM_PAGE_SIZE`, so 513
iterations always suffice (`flashLoop` with the fuel given by
`fobooster_program` genuinely reaches the loop's own exit condition,
see the termination theorem for C6). -/
def flashLoop (ram : Nat → Nat) : Nat → LoopState → LoopState
  | 0, s => s
  | fuel + 1, s =>
    if s.bytes_left ≠ 0 ∧ s.target_addr < maxWritableOffset then
      if memEq s.flash ram s.target_addr s.off SPI_ERASE_SECTOR_SIZE then
        flashLoop ram fuel
          { s with
            bytes_left := sub32 s.bytes_left SPI_ERASE_SECTOR_SIZE
            target_addr := s.target_addr + SPI_ERASE_SECTOR_SIZE
            off := s.off + SPI_ERASE_SECTOR_SIZE }
      else
        flashLoop ram fuel
          (progPages ram (SPI_ERASE_SECTOR_SIZE / SPI_PROGRAM_PAGE_SIZE) 0 (eraseStep s))
    else s

/-- The whole programming pass of `fobooster_main`: run the loop from
`bytes_left = cached_image_length`, `target_addr = 0`,
`current_ptr = &cached_image[0]`. `bytes_left` is a `uint32_t`, hence the
reduction modulo `2 ^ 32`. -/
def fobooster_program (ram flash0 : Nat → Nat) (len : Nat) : LoopState :=
  flashLoop ram 513
    { bytes_left := len % UINT32_MOD
      target_addr := 0
      off := 0
      flash := flash0
      trace := [] }

/-- `enum error_code` of `main.c`. -/
inductive error_code where
  | NO_ERROR
  | INVALID_IMAGE_SIZE
  | HASH_MISMATCH
  | SPI_MISMATCH
  | MISSING_MULTIBOOT
deriving DecidableEq

/-- The 64-byte `multiboot_reference` array of `main.c`, byte for byte. -/
def multiboot_reference : List Nat :=
  [0x7e, 0xaa, 0x99, 0x7e, 0x92, 0x00, 0x00, 0x44,
   0x03, 0x04, 0x00, 0xa0, 0x82, 0x00, 0x00, 0x01,
   0x08, 0x00, 0x00, 0x00, 0x00, 0x00, 0x00, 0x00,
   0x00, 0x00, 0x00, 0x00, 0x00, 0x00, 0x00, 0x00,
   0x7e, 0xaa, 0x99, 0x7e, 0x92, 0x00, 0x00, 0x44,
   0x03, 0x00, 0x00, 0xa0, 0x82, 0x00, 0x00, 0x01,
   0x08, 0x00, 0x00, 0x00, 0x00, 0x00, 0x00, 0x00,
   0x00, 0x00, 0x00, 0x00, 0x00, 0x00, 0x00, 0x00]

/-- The inputs `fobooster_main` reads: the linker-provided metadata words,
the identity words, and the staged source bytes at `0x20040000`. -/
structure ValidateInput where
  image_length : Nat
  hash_length : Nat
  image_seed : Nat
  xxhash : Nat
  spi_id : Nat
  read_spi_id : Nat
  src : Nat → Nat

/-- `cached_image` after `memcpy(cached_image, (void*)0x20040000,
image_length)`: the array is static (zero-initialised), so bytes beyond
`image_length` are zero. -/
def cachedImage (inp : ValidateInput) : Nat → Nat :=
  fun i => if i < inp.image_length then inp.src i else 0

/-- The staged image after the patch `((uint8_t *)cached_image)[9] = 0x04`. -/
def stagedImage (inp : ValidateInput) : Nat → Nat :=
  fun i => if i = 9 then 0x04 else cachedImage inp i

/-- The `hash_length` bytes of the source region that
`XXH32((const void *)0x20040000, hash_length, image_seed)` reads. -/
def hashBytes (inp : ValidateInput) : List Nat :=
  (List.range inp.hash_length).map inp.src

/-- `calculated_hash`: the hashing primitive `XXH32` is external to this
program (treated by the spec as a pure function), so it is a parameter
`H`; its `uint32_t` return value is reduced modulo `2 ^ 32`. -/
def hashOf (H : List Nat → Nat → Nat) (inp : ValidateInput) : Nat :=
  H (hashBytes inp) inp.image_seed % UINT32_MOD

/-- The descriptor check loop of `fobooster_main`: every one of the first
`sizeof(multiboot_reference)` bytes of `cached_image` must equal the
reference byte at the same offset. -/
def multibootOk (img : Nat → Nat) : Bool :=
  (List.range multiboot_reference.length).all fun i =>
    img i == multiboot_reference.getD i 0

/-- `erase_booster()`: write a zero byte to flash address 9
(`spiBeginWrite(9, &zero, 1)`), then erase the sector holding Booster
(`ftfl_begin_erase_sector(0x5a000)`). Returns the new flash contents and
the two commands issued, in order. -/
def erase_booster (flash : Nat → Nat) : (Nat → Nat) × List FlashOp :=
  (eraseSector (fun x => if x = 9 then 0 else flash x) 0x5a000,
   [FlashOp.prog 9 1, FlashOp.erase 0x5a000])

/-- The value `reboot()` writes to `reboot_ctrl`:
`0xac | ((image_index & 3) << 0)` with `image_index = 2`. -/
def rebootCtrlValue : Nat := 0xac ||| (2 &&& 3)

/-- Outcome of a run of `fobooster_main`: either `error(code)` was entered
(latching the code; the flash contents and command list at that moment are
recorded — `error` itself issues no flash command and never returns), or
the success path ran the programming pass, `erase_booster`, and the
non-returning `reboot()`. -/
inductive RunResult where
  | failed (code : error_code) (flash : Nat → Nat) (trace : List FlashOp)
  | rebooted (ctrl : Nat) (flash : Nat → Nat) (progTrace : List FlashOp)
      (finishTrace : List FlashOp)

namespace RunResult

/-- Whether the run ended in `error(...)`. -/
def isFailed : RunResult → Bool
  | .failed _ _ _ => true
  | .rebooted _ _ _ _ => false

/-- Whether the run ended in `reboot()`. -/
def isRebooted : RunResult → Bool
  | .failed _ _ _ => false
  | .rebooted _ _ _ _ => true

/-- The latched `error_code` (`NO_ERROR` on the success path). -/
def failedCode : RunResult → error_code
  | .failed c _ _ => c
  | .rebooted _ _ _ _ => .NO_ERROR

/-- Final flash contents. -/
def flashOf : RunResult → Nat → Nat
  | .failed _ f _ => f
  | .rebooted _ f _ _ => f

/-- Erase/program commands issued by the programming loop. -/
def progTraceOf : RunResult → List FlashOp
  | .failed _ _ t => t
  | .rebooted _ _ t _ => t

/-- Commands issued by `erase_booster` (empty when `error` was entered:
the `erase_booster()` call in `error` sits after `while(1);` and is dead). -/
def finishTraceOf : RunResult → List FlashOp
  | .failed _ _ _ => []
  | .rebooted _ _ _ ft => ft

/-- The `reboot_ctrl` value written (0 when no reboot happened). -/
def ctrlOf : RunResult → Nat
  | .failed _ _ _ => 0
  | .rebooted c _ _ _ => c

end RunResult

/-- `fobooster_main` from the point the transport sets `should_continue`:
the size check, the hash check, the copy to `cached_image`, the multiboot
descriptor check, the byte-9 patch, the identity re-read check, the
programming loop, and `finish_flashing()` (= `erase_booster(); reboot()`).
Peripheral setup, the USB transport, the RGB indicator and `msleep` are
external collaborators with no effect on flash. -/
def fobooster_main (H : List Nat → Nat → Nat) (inp : ValidateInput)
    (flash0 : Nat → Nat) : RunResult :=
  if CACHED_IMAGE_BYTES < inp.image_length then
    .failed .INVALID_IMAGE_SIZE flash0 []
  else if hashOf H inp ≠ inp.xxhash then
    .failed .HASH_MISMATCH flash0 []
  else if multibootOk (cachedImage inp) = false then
    .failed .MISSING_MULTIBOOT flash0 []
  else if inp.spi_id ≠ inp.read_spi_id then
    .failed .SPI_MISMATCH flash0 []
  else
    let s := fobooster_program (stagedImage inp) flash0 inp.image_length
    let fin := erase_booster s.flash
    .rebooted rebootCtrlValue fin.1 s.trace fin.2

/-- Addresses of the erase commands in a command list, in order. -/
def eraseAddrs (t : List FlashOp) : List Nat :=
  t.filterMap fun op =>
    match op with
    | .erase a => some a
    | .prog _ _ => none

/-- Trace discipline relation: an erase command must be immediately
followed by a program command at the same (block-start) address. -/
def opFollows (x y : FlashOp) : Prop :=
  ∀ a, x = FlashOp.erase a → ∃ n, y = FlashOp.prog a n

/-! ## Concrete inputs used by witnesses and counterexamples -/

/-- A trivial stand-in for the external `XXH32` primitive. -/
def H0 : List Nat → Nat → Nat := fun _ _ => 0

/-- All-zero byte buffer. -/
def zeroFlash : Nat → Nat := fun _ => 0

/-- All-ones byte buffer. -/
def oneFlash : Nat → Nat := fun _ => 1

/-- A source buffer that is exactly the reference multiboot descriptor. -/
def refImage : Nat → Nat := fun i => multiboot_reference.getD i 0

/-- A well-formed 64-byte input: exact descriptor, trivial hash, matching
identities. -/
def inpGood : ValidateInput :=
  { image_length := 64, hash_length := 0, image_seed := 0, xxhash := 0
    spi_id := 7, read_spi_id := 7, src := refImage }

/-- An input whose declared length exceeds the staging capacity. -/
def inpOversize : ValidateInput :=
  { image_length := 0x1a001, hash_length := 0, image_seed := 0, xxhash := 0
    spi_id := 0, read_spi_id := 0, src := zeroFlash }

/-- An input whose declared hash does not match the computed one. -/
def inpBadHash : ValidateInput :=
  { image_length := 0, hash_length := 0, image_seed := 0, xxhash := 1
    spi_id := 0, read_spi_id := 0, src := zeroFlash }

/-- An all-zero input (fails the descriptor check at offset 0). -/
def inpZeroSrc : ValidateInput :=
  { image_length := 0, hash_length := 0, image_seed := 0, xxhash := 0
    spi_id := 0, read_spi_id := 0, src := zeroFlash }

/-- An input equal to the reference descriptor except at the designated
selector byte (offset 9). -/
def inpSelector : ValidateInput :=
  { image_length := 64, hash_length := 0, image_seed := 0, xxhash := 0
    spi_id := 0, read_spi_id := 0
    src := fun i => if i = 9 then 0 else multiboot_reference.getD i 0 }

/-- A validated 100-byte image: the descriptor followed by a 36-byte tail,
with a length that is not a multiple of the erase-sector size. -/
def inpTail : ValidateInput :=
  { image_length := 100, hash_length := 0, image_seed := 0, xxhash := 0
    spi_id := 3, read_spi_id := 3
    src := fun i => if i < 64 then multiboot_reference.getD i 0 else 0xaa }

/-- Loop state at a block whose flash contents match the image slice. -/
def skipState : LoopState :=
  { bytes_left := 4096, target_addr := 0, off := 0, flash := zeroFlash
    trace := [] }

/-- Loop state on a matching block with fewer than a full sector of image
bytes left: the skip path wraps `bytes_left` below zero. -/
def wrapState : LoopState :=
  { bytes_left := 16, target_addr := 0, off := 0, flash := zeroFlash
    trace := [] }

/-! ## Arithmetic and buffer lemmas -/

theorem sub32_lt (a b : Nat) : sub32 a b < UINT32_MOD :=
  Nat.mod_lt _ (by decide)

theorem sub32_eq_sub {a b : Nat} (hb : b ≤ a) (ha : a < UINT32_MOD) :
    sub32 a b = a - b := by
  unfold sub32
  have h : a + (UINT32_MOD - b) = (a - b) + UINT32_MOD := by omega
  rw [h, Nat.add_mod_right]
  exact Nat.mod_eq_of_lt (by omega)

theorem sub32_wrap {a b : Nat} (hab : a < b) (hb : b ≤ UINT32_MOD) :
    sub32 a b = a + (UINT32_MOD - b) := by
  unfold sub32
  exact Nat.mod_eq_of_lt (by omega)

theorem progWrite_zero (f ram : Nat → Nat) (a o : Nat) :
    progWrite f ram a o 0 = f := by
  funext x
  simp only [progWrite]
  rw [if_neg (by omega)]

/-- Two contiguous programs from the same source compose into one. -/
theorem progWrite_progWrite (f ram : Nat → Nat) (a o c m : Nat) :
    progWrite (progWrite f ram a o c) ram (a + c) (o + c) m
      = progWrite f ram a o (c + m) := by
  funext x
  simp only [progWrite]
  by_cases h1 : a + c ≤ x ∧ x < a + c + m
  · rw [if_pos h1, if_pos (by omega)]
    have : o + c + (x - (a + c)) = o + (x - a) := by omega
    rw [this]
  · rw [if_neg h1]
    by_cases h2 : a ≤ x ∧ x < a + c
    · rw [if_pos h2, if_pos (by omega)]
    · rw [if_neg h2, if_neg (by omega)]

theorem memEq_iff {f g : Nat → Nat} :
    ∀ (n a b : Nat), memEq f g a b n = true ↔ ∀ i, i < n → f (a + i) = g (b + i) := by
  intro n
  induction n with
  | zero => intro a b; simp [memEq]
  | succ n ih =>
    intro a b
    rw [memEq, Bool.and_eq_true, beq_iff_eq, ih (a + 1) (b + 1)]
    constructor
    · rintro ⟨h0, h⟩ i hi
      cases i with
      | zero => simpa using h0
      | succ j =>
        have ha : a + (j + 1) = a + 1 + j := by omega
        have hb : b + (j + 1) = b + 1 + j := by omega
        rw [ha, hb]
        exact h j (by omega)
    · intro h
      refine ⟨by simpa using h 0 (by omega), fun j hj => ?_⟩
      have ha : a + 1 + j = a + (j + 1) := by omega
      have hb : b + 1 + j = b + (j + 1) := by omega
      rw [ha, hb]
      exact h (j + 1) (by omega)

theorem multibootOk_iff {img : Nat → Nat} :
    multibootOk img = true ↔
      ∀ i, i < multiboot_reference.length → img i = multiboot_reference.getD i 0 := by
  unfold multibootOk
  rw [List.all_eq_true]
  constructor
  · intro h i hi
    have := h i (List.mem_range.2 hi)
    exact beq_iff_eq.1 this
  · intro h i hi
    exact beq_iff_eq.2 (h i (List.mem_range.1 hi))

/-! ## Characterisation of the page-programming loop -/

/-- Master characterisation of `progPages` when called with matching
`page_offset`/`fuel` accounting (as `flashLoop` does): some `k ≤ fuel`
pages are programmed; the state advances by `k` pages, `bytes_left`
decreases (truncated) by `256 * k`, the flash receives the contiguous
image slice, the trace grows by the `k` page commands, and the loop ran
short only because `bytes_left` hit zero. -/
theorem progPages_spec (ram : Nat → Nat) :
    ∀ (fuel page_offset : Nat) (s : LoopState),
      page_offset + SPI_PROGRAM_PAGE_SIZE * fuel = SPI_ERASE_SECTOR_SIZE →
      s.bytes_left < UINT32_MOD →
      ∃ k, k ≤ fuel ∧
        (progPages ram fuel page_offset s).target_addr
            = s.target_addr + SPI_PROGRAM_PAGE_SIZE * k ∧
        (progPages ram fuel page_offset s).off
            = s.off + SPI_PROGRAM_PAGE_SIZE * k ∧
        (progPages ram fuel page_offset s).bytes_left
            = s.bytes_left - SPI_PROGRAM_PAGE_SIZE * k ∧
        (progPages ram fuel page_offset s).flash
            = progWrite s.flash ram s.target_addr s.off
                (min s.bytes_left (SPI_PROGRAM_PAGE_SIZE * k)) ∧
        (progPages ram fuel page_offset s).trace
            = s.trace ++ (List.range k).map (fun i =>
                FlashOp.prog (s.target_addr + SPI_PROGRAM_PAGE_SIZE * i)
                  (min (s.bytes_left - SPI_PROGRAM_PAGE_SIZE * i)
                    SPI_PROGRAM_PAGE_SIZE)) ∧
        ((progPages ram fuel page_offset s).bytes_left ≠ 0 → k = fuel) ∧
        (s.bytes_left = 0 → k = 0) ∧
        (s.bytes_left ≠ 0 → 0 < fuel → 0 < k) := by
  intro fuel
  induction fuel with
  | zero =>
    intro po s hpo hlt
    refine ⟨0, Nat.le_refl 0, ?_, ?_, ?_, ?_, ?_, ?_, ?_, ?_⟩ <;>
      simp [progPages, progWrite_zero]
  | succ fuel ih =>
    intro po s hpo hlt
    have hP : SPI_PROGRAM_PAGE_SIZE = 256 := rfl
    have hS : SPI_ERASE_SECTOR_SIZE = 4096 := rfl
    have hpolt : po < SPI_ERASE_SECTOR_SIZE := by
      rw [hP, hS, Nat.mul_succ] at hpo
      rw [hS]
      omega
    by_cases hbz : s.bytes_left = 0
    · rw [progPages, if_neg (by simp [hbz])]
      refine ⟨0, Nat.zero_le _, ?_, ?_, ?_, ?_, ?_, ?_, ?_, ?_⟩ <;>
        simp [progWrite_zero, hbz]
    · rw [progPages, if_pos ⟨hbz, hpolt⟩]
      set n := if SPI_PROGRAM_PAGE_SIZE < s.bytes_left then SPI_PROGRAM_PAGE_SIZE
        else s.bytes_left with hn
      have hn_le : n ≤ s.bytes_left := by rw [hn]; split <;> omega
      have hn_pg : n ≤ SPI_PROGRAM_PAGE_SIZE := by rw [hn]; split <;> omega
      have hn_pos : 0 < n := by rw [hn, hP]; split <;> omega
      have hbl' : (pageWrite ram s n).bytes_left = s.bytes_left - n :=
        sub32_eq_sub hn_le hlt
      have hta' : (pageWrite ram s n).target_addr
          = s.target_addr + SPI_PROGRAM_PAGE_SIZE := rfl
      have hoff' : (pageWrite ram s n).off = s.off + SPI_PROGRAM_PAGE_SIZE := rfl
      have hfl' : (pageWrite ram s n).flash
          = progWrite s.flash ram s.target_addr s.off n := rfl
      have htr' : (pageWrite ram s n).trace
          = s.trace ++ [FlashOp.prog s.target_addr n] := rfl
      obtain ⟨k, hkle, hta, hoff, hbl, hflash, htrace, hfull, hzk, hposk⟩ :=
        ih (po + SPI_PROGRAM_PAGE_SIZE) (pageWrite ram s n)
          (by rw [hP, hS] at hpo ⊢; rw [Nat.mul_succ] at hpo; omega)
          (by rw [hbl']; omega)
      by_cases hble : s.bytes_left ≤ SPI_PROGRAM_PAGE_SIZE
      · -- final, possibly partial page: n = bytes_left and the inner loop stops
        have hnbl : n = s.bytes_left := by rw [hn, if_neg (by omega)]
        have hk0 : k = 0 := hzk (by rw [hbl', hnbl]; omega)
        subst hk0
        refine ⟨1, by omega, ?_, ?_, ?_, ?_, ?_, ?_, ?_, ?_⟩
        · rw [hta, hta']
          all_goals omega
        · rw [hoff, hoff']
          all_goals omega
        · rw [hbl, hbl', hnbl]
          all_goals omega
        · rw [hflash, Nat.mul_zero, Nat.min_zero, progWrite_zero, hfl']
          have hmin : min s.bytes_left (SPI_PROGRAM_PAGE_SIZE * 1) = n := by
            rw [hnbl]
            omega
          rw [hmin]
        · rw [htrace, htr']
          simp only [List.range_zero, List.map_nil, List.append_nil]
          congr 1
          rw [show List.range 1 = [0] from rfl]
          simp only [List.map_cons, List.map_nil]
          have h1 : s.target_addr + SPI_PROGRAM_PAGE_SIZE * 0 = s.target_addr := by
            omega
          have h2 : min (s.bytes_left - SPI_PROGRAM_PAGE_SIZE * 0)
              SPI_PROGRAM_PAGE_SIZE = n := by
            rw [hnbl]
            omega
          rw [h1, h2]
        · intro hne
          exfalso
          apply hne
          rw [hbl, hbl', hnbl]
          omega
        · intro h
          exact absurd h hbz
        · intro _ _
          omega
      · -- full page: n = SPI_PROGRAM_PAGE_SIZE
        have hnpg : n = SPI_PROGRAM_PAGE_SIZE := by rw [hn, if_pos (by omega)]
        refine ⟨k + 1, by omega, ?_, ?_, ?_, ?_, ?_, ?_, ?_, ?_⟩
        · rw [hta, hta', hP]
          all_goals omega
        · rw [hoff, hoff', hP]
          all_goals omega
        · rw [hbl, hbl', hnpg, hP]
          all_goals omega
        · rw [hflash, hfl', hta', hoff', hbl', hnpg, progWrite_progWrite]
          have hmin : SPI_PROGRAM_PAGE_SIZE
                + min (s.bytes_left - SPI_PROGRAM_PAGE_SIZE)
                    (SPI_PROGRAM_PAGE_SIZE * k)
              = min s.bytes_left (SPI_PROGRAM_PAGE_SIZE * (k + 1)) := by
            rw [hP] at hble ⊢
            omega
          rw [hmin]
        · rw [htrace, htr', hta', hbl', hnpg, List.append_assoc]
          congr 1
          rw [List.range_succ_eq_map, List.map_cons, List.map_map,
            List.singleton_append]
          have h1 : s.target_addr + SPI_PROGRAM_PAGE_SIZE * 0 = s.target_addr := by
            omega
          have h2 : min (s.bytes_left - SPI_PROGRAM_PAGE_SIZE * 0)
              SPI_PROGRAM_PAGE_SIZE = SPI_PROGRAM_PAGE_SIZE := by
            rw [hP] at hble ⊢
            omega
          rw [h1, h2]
          refine congrArg (FlashOp.prog s.target_addr SPI_PROGRAM_PAGE_SIZE :: ·) ?_
          apply List.map_congr_left
          intro i _
          simp only [Function.comp_apply, Nat.succ_eq_add_one]
          have h3 : s.target_addr + SPI_PROGRAM_PAGE_SIZE
                + SPI_PROGRAM_PAGE_SIZE * i
              = s.target_addr + SPI_PROGRAM_PAGE_SIZE * (i + 1) := by
            rw [hP]
            omega
          have h4 : min (s.bytes_left - SPI_PROGRAM_PAGE_SIZE
                  - SPI_PROGRAM_PAGE_SIZE * i) SPI_PROGRAM_PAGE_SIZE
              = min (s.bytes_left - SPI_PROGRAM_PAGE_SIZE * (i + 1))
                  SPI_PROGRAM_PAGE_SIZE := by
            rw [hP]
            omega
          rw [h3, h4]
        · intro hne
          rw [hbl, hbl', hnpg] at hne
          have hk : k = fuel := by
            apply hfull
            rw [hbl, hbl', hnpg]
            exact hne
          omega
        · intro h
          exact absurd h hbz
        · intro _ _
          omega

/-! ## Basic step lemmas for the outer loop -/

theorem eraseStep_bytes_left (s : LoopState) :
    (eraseStep s).bytes_left = s.bytes_left := rfl

theorem eraseStep_target_addr (s : LoopState) :
    (eraseStep s).target_addr = s.target_addr := rfl

theorem eraseStep_off (s : LoopState) : (eraseStep s).off = s.off := rfl

theorem eraseStep_flash (s : LoopState) :
    (eraseStep s).flash = eraseSector s.flash s.target_addr := rfl

theorem eraseStep_trace (s : LoopState) :
    (eraseStep s).trace = s.trace ++ [FlashOp.erase s.target_addr] := rfl

theorem flashLoop_zero (ram : Nat → Nat) (fuel : Nat) (s : LoopState)
    (h : s.bytes_left = 0) : flashLoop ram fuel s = s := by
  cases fuel with
  | zero => rfl
  | succ fuel => rw [flashLoop, if_neg (by simp [h])]

theorem flashLoop_succ_exit {ram : Nat → Nat} {s : LoopState} (fuel : Nat)
    (hg : ¬(s.bytes_left ≠ 0 ∧ s.target_addr < maxWritableOffset)) :
    flashLoop ram (fuel + 1) s = s := by
  rw [flashLoop, if_neg hg]

theorem flashLoop_succ_skip {ram : Nat → Nat} {s : LoopState} (fuel : Nat)
    (hg : s.bytes_left ≠ 0 ∧ s.target_addr < maxWritableOffset)
    (hm : memEq s.flash ram s.target_addr s.off SPI_ERASE_SECTOR_SIZE = true) :
    flashLoop ram (fuel + 1) s = flashLoop ram fuel
      { s with
        bytes_left := sub32 s.bytes_left SPI_ERASE_SECTOR_SIZE
        target_addr := s.target_addr + SPI_ERASE_SECTOR_SIZE
        off := s.off + SPI_ERASE_SECTOR_SIZE } := by
  rw [flashLoop, if_pos hg, if_pos hm]

theorem flashLoop_succ_prog {ram : Nat → Nat} {s : LoopState} (fuel : Nat)
    (hg : s.bytes_left ≠ 0 ∧ s.target_addr < maxWritableOffset)
    (hm : memEq s.flash ram s.target_addr s.off SPI_ERASE_SECTOR_SIZE = false) :
    flashLoop ram (fuel + 1) s = flashLoop ram fuel
      (progPages ram (SPI_ERASE_SECTOR_SIZE / SPI_PROGRAM_PAGE_SIZE) 0
        (eraseStep s)) := by
  rw [flashLoop, if_pos hg, if_neg (by simp [hm])]

/-- Fuel accounting for the `progPages` call made by `flashLoop`. -/
theorem progPages_fuel_eq :
    0 + SPI_PROGRAM_PAGE_SIZE * (SPI_ERASE_SECTOR_SIZE / SPI_PROGRAM_PAGE_SIZE)
      = SPI_ERASE_SECTOR_SIZE := by decide

/-! ## Termination of the programming loop -/

/-- With enough fuel (each iteration advances `target_addr` by at least one
page), `flashLoop` genuinely reaches the loop's own exit condition:
`bytes_left == 0` or `target_addr >= 131072`. -/
theorem flashLoop_exits (ram : Nat → Nat) :
    ∀ (fuel : Nat) (s : LoopState),
      s.bytes_left < UINT32_MOD →
      maxWritableOffset ≤ s.target_addr + SPI_PROGRAM_PAGE_SIZE * fuel →
      (flashLoop ram fuel s).bytes_left = 0 ∨
        maxWritableOffset ≤ (flashLoop ram fuel s).target_addr := by
  intro fuel
  induction fuel with
  | zero =>
    intro s hlt hb
    right
    show maxWritableOffset ≤ s.target_addr
    omega
  | succ fuel ih =>
    intro s hlt hb
    have hP : SPI_PROGRAM_PAGE_SIZE = 256 := rfl
    have hS : SPI_ERASE_SECTOR_SIZE = 4096 := rfl
    by_cases hg : s.bytes_left ≠ 0 ∧ s.target_addr < maxWritableOffset
    · by_cases hm : memEq s.flash ram s.target_addr s.off SPI_ERASE_SECTOR_SIZE = true
      · rw [flashLoop_succ_skip fuel hg hm]
        apply ih
        · exact sub32_lt _ _
        · show maxWritableOffset
              ≤ s.target_addr + SPI_ERASE_SECTOR_SIZE + SPI_PROGRAM_PAGE_SIZE * fuel
          rw [hP, hS]
          rw [hP, Nat.mul_succ] at hb
          omega
      · have hm2 : memEq s.flash ram s.target_addr s.off SPI_ERASE_SECTOR_SIZE
            = false := by
          revert hm
          cases memEq s.flash ram s.target_addr s.off SPI_ERASE_SECTOR_SIZE <;> simp
        rw [flashLoop_succ_prog fuel hg hm2]
        obtain ⟨k, hkle, hta, hoff, hbl, hflash, htrace, hfull, hzk, hposk⟩ :=
          progPages_spec ram (SPI_ERASE_SECTOR_SIZE / SPI_PROGRAM_PAGE_SIZE) 0
            (eraseStep s) progPages_fuel_eq
            (by rw [eraseStep_bytes_left]; exact hlt)
        have hk1 : 0 < k := by
          apply hposk
          · rw [eraseStep_bytes_left]; exact hg.1
          · decide
        apply ih
        · rw [hbl, eraseStep_bytes_left, hP]
          omega
        · rw [hta, eraseStep_target_addr]
          rw [hP, Nat.mul_succ] at hb
          rw [hP]
          omega
    · rw [flashLoop_succ_exit fuel hg]
      rcases not_and_or.mp hg with h | h
      · exact Or.inl (not_not.mp h)
      · right
        omega

/-- Once `bytes_left` is at least the remaining distance to the address cap
(as happens after an unsigned wrap), the loop runs all the way to
`target_addr = 131072`, consuming exactly the remaining distance. -/
theorem flashLoop_runs_to_cap (ram : Nat → Nat) :
    ∀ (fuel : Nat) (s : LoopState),
      s.bytes_left < UINT32_MOD →
      SPI_ERASE_SECTOR_SIZE ∣ s.target_addr →
      s.target_addr ≤ maxWritableOffset →
      maxWritableOffset - s.target_addr ≤ s.bytes_left →
      maxWritableOffset ≤ s.target_addr + SPI_ERASE_SECTOR_SIZE * fuel →
      (flashLoop ram fuel s).target_addr = maxWritableOffset ∧
      (flashLoop ram fuel s).bytes_left
          = s.bytes_left - (maxWritableOffset - s.target_addr) ∧
      (flashLoop ram fuel s).off = s.off + (maxWritableOffset - s.target_addr) := by
  intro fuel
  induction fuel with
  | zero =>
    intro s hlt hdvd hle hrem hfuel
    rw [show flashLoop ram 0 s = s from rfl]
    refine ⟨?_, ?_, ?_⟩ <;> omega
  | succ fuel ih =>
    intro s hlt hdvd hle hrem hfuel
    have hP : SPI_PROGRAM_PAGE_SIZE = 256 := rfl
    have hS : SPI_ERASE_SECTOR_SIZE = 4096 := rfl
    have hM : maxWritableOffset = 131072 := rfl
    by_cases htop : s.target_addr = maxWritableOffset
    · rw [flashLoop_succ_exit fuel (by omega)]
      refine ⟨?_, ?_, ?_⟩ <;> omega
    · have hlt2 : s.target_addr < maxWritableOffset := by omega
      obtain ⟨c, hc⟩ := hdvd
      have hble : SPI_ERASE_SECTOR_SIZE ≤ maxWritableOffset - s.target_addr := by
        rw [hS] at hc
        rw [hS, hM]
        rw [hM] at hlt2
        omega
      have hbl4 : SPI_ERASE_SECTOR_SIZE ≤ s.bytes_left := le_trans hble hrem
      have hg : s.bytes_left ≠ 0 ∧ s.target_addr < maxWritableOffset :=
        ⟨by rw [hS] at hbl4; omega, hlt2⟩
      by_cases hm : memEq s.flash ram s.target_addr s.off SPI_ERASE_SECTOR_SIZE
          = true
      · rw [flashLoop_succ_skip fuel hg hm]
        have hsub : sub32 s.bytes_left SPI_ERASE_SECTOR_SIZE
            = s.bytes_left - SPI_ERASE_SECTOR_SIZE := sub32_eq_sub hbl4 hlt
        obtain ⟨h1, h2, h3⟩ := ih
          { s with
            bytes_left := sub32 s.bytes_left SPI_ERASE_SECTOR_SIZE
            target_addr := s.target_addr + SPI_ERASE_SECTOR_SIZE
            off := s.off + SPI_ERASE_SECTOR_SIZE }
          (sub32_lt _ _)
          (Dvd.dvd.add ⟨c, hc⟩ (dvd_refl _))
          (by show s.target_addr + SPI_ERASE_SECTOR_SIZE ≤ maxWritableOffset; omega)
          (by show maxWritableOffset - (s.target_addr + SPI_ERASE_SECTOR_SIZE)
                ≤ sub32 s.bytes_left SPI_ERASE_SECTOR_SIZE
              rw [hsub]; omega)
          (by show maxWritableOffset ≤ s.target_addr + SPI_ERASE_SECTOR_SIZE
                + SPI_ERASE_SECTOR_SIZE * fuel
              rw [Nat.mul_succ] at hfuel; omega)
        refine ⟨h1, ?_, ?_⟩
        · rw [h2]
          show sub32 s.bytes_left SPI_ERASE_SECTOR_SIZE
              - (maxWritableOffset - (s.target_addr + SPI_ERASE_SECTOR_SIZE)) = _
          rw [hsub]
          omega
        · rw [h3]
          show s.off + SPI_ERASE_SECTOR_SIZE
              + (maxWritableOffset - (s.target_addr + SPI_ERASE_SECTOR_SIZE)) = _
          omega
      · have hm2 : memEq s.flash ram s.target_addr s.off SPI_ERASE_SECTOR_SIZE
            = false := by
          revert hm
          cases memEq s.flash ram s.target_addr s.off SPI_ERASE_SECTOR_SIZE <;> simp
        rw [flashLoop_succ_prog fuel hg hm2]
        obtain ⟨k, hkle, hta, hoff, hbl, hflash, htrace, hfull, hzk, hposk⟩ :=
          progPages_spec ram (SPI_ERASE_SECTOR_SIZE / SPI_PROGRAM_PAGE_SIZE) 0
            (eraseStep s) progPages_fuel_eq
            (by rw [eraseStep_bytes_left]; exact hlt)
        rw [show SPI_ERASE_SECTOR_SIZE / SPI_PROGRAM_PAGE_SIZE = 16 by decide]
          at hkle hta hoff hbl hflash htrace hfull ⊢
        rw [eraseStep_bytes_left] at hbl hzk
        rw [eraseStep_target_addr] at hta
        rw [eraseStep_off] at hoff
        have hk16 : k = 16 := by
          by_cases hz : (progPages ram 16 0 (eraseStep s)).bytes_left = 0
          · rw [hbl, hP] at hz
            rw [hS] at hbl4
            omega
          · exact hfull hz
        subst hk16
        rw [hP] at hta hoff hbl
        have hta4 : (progPages ram 16 0 (eraseStep s)).target_addr
            = s.target_addr + SPI_ERASE_SECTOR_SIZE := by rw [hta, hS]
        have hoff4 : (progPages ram 16 0 (eraseStep s)).off
            = s.off + SPI_ERASE_SECTOR_SIZE := by rw [hoff, hS]
        have hbl4' : (progPages ram 16 0 (eraseStep s)).bytes_left
            = s.bytes_left - SPI_ERASE_SECTOR_SIZE := by rw [hbl, hS]
        obtain ⟨h1, h2, h3⟩ := ih (progPages ram 16 0 (eraseStep s))
          (by rw [hbl4']; omega)
          (by rw [hta4]; exact Dvd.dvd.add ⟨c, hc⟩ (dvd_refl _))
          (by rw [hta4]; omega)
          (by rw [hta4, hbl4']; omega)
          (by rw [hta4]; rw [Nat.mul_succ] at hfuel; omega)
        refine ⟨h1, ?_, ?_⟩
        · rw [h2, hbl4', hta4]
          omega
        · rw [h3, hoff4, hta4]
          omega

/-- The programming loop never touches flash at or above the 131072 cap
(when started block-aligned, as `fobooster_main` does). -/
theorem flashLoop_frame_high (ram : Nat → Nat) :
    ∀ (fuel : Nat) (s : LoopState),
      s.bytes_left < UINT32_MOD →
      SPI_ERASE_SECTOR_SIZE ∣ s.target_addr →
      ∀ x, maxWritableOffset ≤ x →
        (flashLoop ram fuel s).flash x = s.flash x := by
  intro fuel
  induction fuel with
  | zero =>
    intro s _ _ x _
    rw [show flashLoop ram 0 s = s from rfl]
  | succ fuel ih =>
    intro s hlt hdvd x hx
    have hP : SPI_PROGRAM_PAGE_SIZE = 256 := rfl
    have hS : SPI_ERASE_SECTOR_SIZE = 4096 := rfl
    have hM : maxWritableOffset = 131072 := rfl
    by_cases hg : s.bytes_left ≠ 0 ∧ s.target_addr < maxWritableOffset
    · by_cases hm : memEq s.flash ram s.target_addr s.off SPI_ERASE_SECTOR_SIZE
          = true
      · rw [flashLoop_succ_skip fuel hg hm]
        exact ih _ (sub32_lt _ _) (Dvd.dvd.add hdvd (dvd_refl _)) x hx
      · have hm2 : memEq s.flash ram s.target_addr s.off SPI_ERASE_SECTOR_SIZE
            = false := by
          revert hm
          cases memEq s.flash ram s.target_addr s.off SPI_ERASE_SECTOR_SIZE <;> simp
        rw [flashLoop_succ_prog fuel hg hm2]
        obtain ⟨k, hkle, hta, hoff, hbl, hflash, htrace, hfull, hzk, hposk⟩ :=
          progPages_spec ram (SPI_ERASE_SECTOR_SIZE / SPI_PROGRAM_PAGE_SIZE) 0
            (eraseStep s) progPages_fuel_eq
            (by rw [eraseStep_bytes_left]; exact hlt)
        rw [show SPI_ERASE_SECTOR_SIZE / SPI_PROGRAM_PAGE_SIZE = 16 by decide]
          at hkle hta hoff hbl hflash htrace hfull ⊢
        rw [eraseStep_bytes_left] at hbl
        rw [eraseStep_target_addr] at hta
        rw [eraseStep_bytes_left, eraseStep_target_addr, eraseStep_off,
          eraseStep_flash] at hflash
        obtain ⟨c, hc⟩ := hdvd
        have hcdiv : s.target_addr / SPI_ERASE_SECTOR_SIZE = c := by
          rw [hc]
          exact Nat.mul_div_cancel_left c (by rw [hS]; omega)
        have hxdiv : 32 ≤ x / SPI_ERASE_SECTOR_SIZE := by
          rw [Nat.le_div_iff_mul_le (by rw [hS]; omega)]
          rw [hS]
          rw [hM] at hx
          omega
        have hc31 : c < 32 := by
          have := hg.2
          rw [hc, hS] at this
          rw [hM] at this
          omega
      -- flash below the cap sector boundary is all `progPages` touches
        have hub : s.target_addr + SPI_ERASE_SECTOR_SIZE ≤ maxWritableOffset := by
          rw [hc, hS, hM]
          omega
        have hfx : (progPages ram 16 0 (eraseStep s)).flash x = s.flash x := by
          rw [hflash]
          show (if s.target_addr ≤ x ∧
                  x < s.target_addr + min s.bytes_left (SPI_PROGRAM_PAGE_SIZE * k)
                then ram (s.off + (x - s.target_addr))
                else eraseSector s.flash s.target_addr x) = s.flash x
          rw [if_neg (by
            rw [hP]
            rw [hS] at hub
            rw [hM] at hub hx
            omega)]
          show (if x / SPI_ERASE_SECTOR_SIZE
                  = s.target_addr / SPI_ERASE_SECTOR_SIZE
                then ERASED_BYTE else s.flash x) = s.flash x
          rw [if_neg (by rw [hcdiv]; omega)]
        by_cases hz : (progPages ram 16 0 (eraseStep s)).bytes_left = 0
        · rw [flashLoop_zero ram fuel _ hz]
          exact hfx
        · have hk16 : k = 16 := hfull hz
          subst hk16
          rw [ih (progPages ram 16 0 (eraseStep s))
            (by rw [hbl]; omega)
            (by rw [hta, hP, hc, hS]; exact ⟨c + 1, by omega⟩)
            x hx]
          exact hfx
    · rw [flashLoop_succ_exit fuel hg]

/-! ## Erase/program trace discipline -/

theorem eraseAddrs_append (t u : List FlashOp) :
    eraseAddrs (t ++ u) = eraseAddrs t ++ eraseAddrs u :=
  List.filterMap_append t u _

theorem eraseAddrs_map_prog (g h : Nat → Nat) (l : List Nat) :
    eraseAddrs (l.map fun i => FlashOp.prog (g i) (h i)) = [] := by
  induction l with
  | nil => rfl
  | cons x xs ih => simp [eraseAddrs, List.filterMap_cons]

theorem opFollows_of_prog (a n : Nat) (y : FlashOp) :
    opFollows (FlashOp.prog a n) y := by
  intro b hb
  cases hb

theorem chain'_opFollows_map_prog (g h : Nat → Nat) (l : List Nat) :
    List.Chain' opFollows (l.map fun i => FlashOp.prog (g i) (h i)) := by
  induction l with
  | nil => simp
  | cons x xs ih =>
    rw [List.map_cons, List.chain'_cons']
    exact ⟨fun y _ => opFollows_of_prog _ _ y, ih⟩

theorem getLast?_map_prog_ne_erase (g h : Nat → Nat) (l : List Nat) (a : Nat) :
    ((l.map fun i => FlashOp.prog (g i) (h i)).getLast? ≠ some (FlashOp.erase a)) := by
  intro hco
  have hmem : FlashOp.erase a ∈ l.map fun i => FlashOp.prog (g i) (h i) := by
    rcases List.mem_getLast?_eq_getLast hco with ⟨hne, heq⟩
    rw [heq]
    exact List.getLast_mem hne
  rcases List.mem_map.1 hmem with ⟨i, _, hi⟩
  cases hi

/-- Every erase block address is erased at most once per pass: the erase
addresses in the trace are strictly increasing. -/
theorem flashLoop_erase_once (ram : Nat → Nat) :
    ∀ (fuel : Nat) (s : LoopState),
      s.bytes_left < UINT32_MOD →
      (∀ a ∈ eraseAddrs s.trace, a < s.target_addr) →
      (eraseAddrs s.trace).Pairwise (· < ·) →
      (eraseAddrs (flashLoop ram fuel s).trace).Pairwise (· < ·) := by
  intro fuel
  induction fuel with
  | zero =>
    intro s _ _ hpw
    exact hpw
  | succ fuel ih =>
    intro s hlt hbound hpw
    have hP : SPI_PROGRAM_PAGE_SIZE = 256 := rfl
    have hS : SPI_ERASE_SECTOR_SIZE = 4096 := rfl
    by_cases hg : s.bytes_left ≠ 0 ∧ s.target_addr < maxWritableOffset
    · by_cases hm : memEq s.flash ram s.target_addr s.off SPI_ERASE_SECTOR_SIZE
          = true
      · rw [flashLoop_succ_skip fuel hg hm]
        apply ih _ (sub32_lt _ _)
        · intro a ha
          have h := hbound a ha
          show a < s.target_addr + SPI_ERASE_SECTOR_SIZE
          rw [hS]
          omega
        · exact hpw
      · have hm2 : memEq s.flash ram s.target_addr s.off SPI_ERASE_SECTOR_SIZE
            = false := by
          revert hm
          cases memEq s.flash ram s.target_addr s.off SPI_ERASE_SECTOR_SIZE <;> simp
        rw [flashLoop_succ_prog fuel hg hm2]
        obtain ⟨k, hkle, hta, hoff, hbl, hflash, htrace, hfull, hzk, hposk⟩ :=
          progPages_spec ram (SPI_ERASE_SECTOR_SIZE / SPI_PROGRAM_PAGE_SIZE) 0
            (eraseStep s) progPages_fuel_eq
            (by rw [eraseStep_bytes_left]; exact hlt)
        rw [show SPI_ERASE_SECTOR_SIZE / SPI_PROGRAM_PAGE_SIZE = 16 by decide]
          at hkle hta hoff hbl hflash htrace hfull ⊢
        rw [eraseStep_bytes_left] at hbl
        rw [eraseStep_target_addr] at hta
        rw [eraseStep_trace] at htrace
        have hk1 : 0 < k := by
          apply hposk
          · rw [eraseStep_bytes_left]; exact hg.1
          · decide
        have htr2 : eraseAddrs (progPages ram 16 0 (eraseStep s)).trace
            = eraseAddrs s.trace ++ [s.target_addr] := by
          rw [htrace, eraseAddrs_append, eraseAddrs_append, eraseAddrs_map_prog,
            List.append_nil]
          rfl
        have hbound2 : ∀ a ∈ eraseAddrs (progPages ram 16 0 (eraseStep s)).trace,
            a < (progPages ram 16 0 (eraseStep s)).target_addr := by
          intro a ha
          rw [htr2] at ha
          rw [hta, hP]
          rcases List.mem_append.1 ha with h | h
          · have := hbound a h
            omega
          · rw [List.mem_singleton] at h
            omega
        have hpw2 : (eraseAddrs (progPages ram 16 0 (eraseStep s)).trace).Pairwise
            (· < ·) := by
          rw [htr2, List.pairwise_append]
          refine ⟨hpw, by simp, ?_⟩
          intro a ha b hb
          rw [List.mem_singleton] at hb
          subst hb
          exact hbound a ha
        by_cases hz : (progPages ram 16 0 (eraseStep s)).bytes_left = 0
        · rw [flashLoop_zero ram fuel _ hz]
          exact hpw2
        · exact ih _ (by rw [hbl, hP]; omega) hbound2 hpw2
    · rw [flashLoop_succ_exit fuel hg]
      exact hpw

/-- Trace discipline: in the whole trace, every erase is immediately
followed by a program command at the same address, and the trace never
ends in a bare erase. -/
theorem flashLoop_erase_followed (ram : Nat → Nat) :
    ∀ (fuel : Nat) (s : LoopState),
      s.bytes_left < UINT32_MOD →
      List.Chain' opFollows s.trace →
      (∀ a, s.trace.getLast? ≠ some (FlashOp.erase a)) →
      List.Chain' opFollows (flashLoop ram fuel s).trace ∧
        ∀ a, (flashLoop ram fuel s).trace.getLast? ≠ some (FlashOp.erase a) := by
  intro fuel
  induction fuel with
  | zero =>
    intro s _ hch hlast
    exact ⟨hch, hlast⟩
  | succ fuel ih =>
    intro s hlt hch hlast
    have hP : SPI_PROGRAM_PAGE_SIZE = 256 := rfl
    by_cases hg : s.bytes_left ≠ 0 ∧ s.target_addr < maxWritableOffset
    · by_cases hm : memEq s.flash ram s.target_addr s.off SPI_ERASE_SECTOR_SIZE
          = true
      · rw [flashLoop_succ_skip fuel hg hm]
        exact ih _ (sub32_lt _ _) hch hlast
      · have hm2 : memEq s.flash ram s.target_addr s.off SPI_ERASE_SECTOR_SIZE
            = false := by
          revert hm
          cases memEq s.flash ram s.target_addr s.off SPI_ERASE_SECTOR_SIZE <;> simp
        rw [flashLoop_succ_prog fuel hg hm2]
        obtain ⟨k, hkle, hta, hoff, hbl, hflash, htrace, hfull, hzk, hposk⟩ :=
          progPages_spec ram (SPI_ERASE_SECTOR_SIZE / SPI_PROGRAM_PAGE_SIZE) 0
            (eraseStep s) progPages_fuel_eq
            (by rw [eraseStep_bytes_left]; exact hlt)
        rw [show SPI_ERASE_SECTOR_SIZE / SPI_PROGRAM_PAGE_SIZE = 16 by decide]
          at hkle hta hoff hbl hflash htrace hfull ⊢
        rw [eraseStep_bytes_left] at hbl
        simp only [eraseStep_trace, eraseStep_target_addr, eraseStep_bytes_left]
          at htrace
        have hk1 : 0 < k := by
          apply hposk
          · rw [eraseStep_bytes_left]; exact hg.1
          · decide
        have hpages_ne : (List.range k).map (fun i =>
            FlashOp.prog (s.target_addr + SPI_PROGRAM_PAGE_SIZE * i)
              (min (s.bytes_left - SPI_PROGRAM_PAGE_SIZE * i)
                SPI_PROGRAM_PAGE_SIZE)) ≠ [] := by
          intro hnil
          have := congrArg List.length hnil
          simp at this
          omega
        have hchain2 :
            List.Chain' opFollows (progPages ram 16 0 (eraseStep s)).trace := by
          rw [htrace, List.append_assoc]
          apply List.chain'_append.2
          refine ⟨hch, ?_, ?_⟩
          · rw [List.singleton_append]
            apply List.chain'_cons'.2
            refine ⟨?_, chain'_opFollows_map_prog _ _ _⟩
            intro y hy a ha
            injection ha with ha1
            subst ha1
            obtain ⟨k2, rfl⟩ : ∃ k2, k = k2 + 1 := ⟨k - 1, by omega⟩
            rw [List.range_succ_eq_map, List.map_cons, List.head?_cons,
              Option.mem_some_iff] at hy
            refine ⟨min (s.bytes_left - SPI_PROGRAM_PAGE_SIZE * 0)
              SPI_PROGRAM_PAGE_SIZE, ?_⟩
            rw [← hy]
            congr 1
          · intro x hx y _ a hxa
            rw [hxa, Option.mem_def] at hx
            exact absurd hx (hlast a)
        have hlast2 : ∀ a,
            (progPages ram 16 0 (eraseStep s)).trace.getLast?
              ≠ some (FlashOp.erase a) := by
          intro a
          rw [htrace, List.append_assoc,
            List.getLast?_append_of_ne_nil _ (by simp),
            ← List.singleton_append,
            List.getLast?_append_of_ne_nil _ hpages_ne]
          exact getLast?_map_prog_ne_erase _ _ _ a
        by_cases hz : (progPages ram 16 0 (eraseStep s)).bytes_left = 0
        · rw [flashLoop_zero ram fuel _ hz]
          exact ⟨hchain2, hlast2⟩
        · exact ih _ (by rw [hbl, hP]; omega) hchain2 hlast2
    · rw [flashLoop_succ_exit fuel hg]
      exact ⟨hch, hlast⟩

/-! ## Full-pass characterisation (sector-aligned image): C3 -/

/-- When the image length is a multiple of the erase-sector size (and fits
under the cap), the pass consumes everything and leaves the programmed
range byte-for-byte equal to the image, touching nothing below the start. -/
theorem flashLoop_writes_image (ram : Nat → Nat) :
    ∀ (fuel : Nat) (s : LoopState),
      s.bytes_left < UINT32_MOD →
      SPI_ERASE_SECTOR_SIZE ∣ s.target_addr →
      SPI_ERASE_SECTOR_SIZE ∣ s.bytes_left →
      s.off = s.target_addr →
      s.target_addr + s.bytes_left ≤ maxWritableOffset →
      maxWritableOffset ≤ s.target_addr + SPI_ERASE_SECTOR_SIZE * fuel →
      (flashLoop ram fuel s).bytes_left = 0 ∧
      (∀ x, s.target_addr ≤ x → x < s.target_addr + s.bytes_left →
        (flashLoop ram fuel s).flash x = ram x) ∧
      (∀ x, x < s.target_addr → (flashLoop ram fuel s).flash x = s.flash x) := by
  intro fuel
  induction fuel with
  | zero =>
    intro s hlt hdvd hdvdb hofft hcap hfuel
    rw [show flashLoop ram 0 s = s from rfl]
    refine ⟨by omega, fun x h1 h2 => ?_, fun x _ => rfl⟩
    exfalso
    omega
  | succ fuel ih =>
    intro s hlt hdvd hdvdb hofft hcap hfuel
    have hP : SPI_PROGRAM_PAGE_SIZE = 256 := rfl
    have hS : SPI_ERASE_SECTOR_SIZE = 4096 := rfl
    by_cases hbz : s.bytes_left = 0
    · rw [flashLoop_zero ram _ _ hbz]
      refine ⟨hbz, fun x h1 h2 => ?_, fun x _ => rfl⟩
      exfalso
      omega
    · obtain ⟨m, hmbl⟩ := hdvdb
      have hbl4 : SPI_ERASE_SECTOR_SIZE ≤ s.bytes_left := by
        have hm1 : 1 ≤ m := by
          rcases Nat.eq_zero_or_pos m with h0 | h
          · exfalso
            apply hbz
            rw [h0, Nat.mul_zero] at hmbl
            exact hmbl
          · exact h
        calc SPI_ERASE_SECTOR_SIZE = SPI_ERASE_SECTOR_SIZE * 1 := by omega
        _ ≤ SPI_ERASE_SECTOR_SIZE * m := Nat.mul_le_mul_left _ hm1
        _ = s.bytes_left := hmbl.symm
      have hg : s.bytes_left ≠ 0 ∧ s.target_addr < maxWritableOffset := by
        refine ⟨hbz, ?_⟩
        rw [hS] at hbl4
        omega
      by_cases hmem : memEq s.flash ram s.target_addr s.off SPI_ERASE_SECTOR_SIZE
          = true
      · rw [flashLoop_succ_skip fuel hg hmem]
        have hsub : sub32 s.bytes_left SPI_ERASE_SECTOR_SIZE
            = s.bytes_left - SPI_ERASE_SECTOR_SIZE := sub32_eq_sub hbl4 hlt
        obtain ⟨h1, h2, h3⟩ := ih
          { s with
            bytes_left := sub32 s.bytes_left SPI_ERASE_SECTOR_SIZE
            target_addr := s.target_addr + SPI_ERASE_SECTOR_SIZE
            off := s.off + SPI_ERASE_SECTOR_SIZE }
          (sub32_lt _ _)
          (Dvd.dvd.add hdvd (dvd_refl _))
          (by show SPI_ERASE_SECTOR_SIZE ∣ sub32 s.bytes_left SPI_ERASE_SECTOR_SIZE
              rw [hsub]
              exact Nat.dvd_sub' ⟨m, hmbl⟩ (dvd_refl _))
          (by show s.off + SPI_ERASE_SECTOR_SIZE
                = s.target_addr + SPI_ERASE_SECTOR_SIZE
              omega)
          (by show s.target_addr + SPI_ERASE_SECTOR_SIZE
                + sub32 s.bytes_left SPI_ERASE_SECTOR_SIZE ≤ maxWritableOffset
              rw [hsub]
              omega)
          (by show maxWritableOffset ≤ s.target_addr + SPI_ERASE_SECTOR_SIZE
                + SPI_ERASE_SECTOR_SIZE * fuel
              rw [Nat.mul_succ] at hfuel
              omega)
        refine ⟨h1, ?_, ?_⟩
        · intro x hx1 hx2
          by_cases hxhi : s.target_addr + SPI_ERASE_SECTOR_SIZE ≤ x
          · apply h2 x hxhi
            show x < s.target_addr + SPI_ERASE_SECTOR_SIZE
              + sub32 s.bytes_left SPI_ERASE_SECTOR_SIZE
            rw [hsub]
            omega
          · rw [h3 x (by show x < s.target_addr + SPI_ERASE_SECTOR_SIZE; omega)]
            show s.flash x = ram x
            have hbyte := (memEq_iff SPI_ERASE_SECTOR_SIZE s.target_addr s.off).1
              hmem (x - s.target_addr) (by omega)
            have he1 : s.target_addr + (x - s.target_addr) = x := by omega
            have he2 : s.off + (x - s.target_addr) = x := by omega
            rw [he1, he2] at hbyte
            exact hbyte
        · intro x hx
          rw [h3 x (by show x < s.target_addr + SPI_ERASE_SECTOR_SIZE; omega)]
      · have hm2 : memEq s.flash ram s.target_addr s.off SPI_ERASE_SECTOR_SIZE
            = false := by
          revert hmem
          cases memEq s.flash ram s.target_addr s.off SPI_ERASE_SECTOR_SIZE <;> simp
        rw [flashLoop_succ_prog fuel hg hm2]
        obtain ⟨k, hkle, hta, hoff, hbl, hflash, htrace, hfull, hzk, hposk⟩ :=
          progPages_spec ram (SPI_ERASE_SECTOR_SIZE / SPI_PROGRAM_PAGE_SIZE) 0
            (eraseStep s) progPages_fuel_eq
            (by rw [eraseStep_bytes_left]; exact hlt)
        rw [show SPI_ERASE_SECTOR_SIZE / SPI_PROGRAM_PAGE_SIZE = 16 by decide]
          at hkle hta hoff hbl hflash htrace hfull ⊢
        rw [eraseStep_bytes_left] at hbl
        rw [eraseStep_target_addr] at hta
        rw [eraseStep_off] at hoff
        rw [eraseStep_bytes_left, eraseStep_target_addr, eraseStep_off,
          eraseStep_flash] at hflash
        have hk16 : k = 16 := by
          by_cases hz : (progPages ram 16 0 (eraseStep s)).bytes_left = 0
          · rw [hbl, hP] at hz
            rw [hS] at hbl4
            omega
          · exact hfull hz
        subst hk16
        have hmin4 : min s.bytes_left (SPI_PROGRAM_PAGE_SIZE * 16)
            = SPI_ERASE_SECTOR_SIZE := by
          rw [hP, hS]
          rw [hS] at hbl4
          omega
        rw [hmin4] at hflash
        obtain ⟨h1, h2, h3⟩ := ih (progPages ram 16 0 (eraseStep s))
          (by rw [hbl, hP]; omega)
          (by rw [hta, hP, hS]
              show SPI_ERASE_SECTOR_SIZE ∣ s.target_addr + 4096
              rw [hS] at hdvd ⊢
              exact Dvd.dvd.add hdvd (dvd_refl _))
          (by rw [hbl, hP]
              show SPI_ERASE_SECTOR_SIZE ∣ s.bytes_left - 256 * 16
              have : (256 : Nat) * 16 = SPI_ERASE_SECTOR_SIZE := by rw [hS]
              rw [this]
              exact Nat.dvd_sub' ⟨m, hmbl⟩ (dvd_refl _))
          (by rw [hoff, hta]
              omega)
          (by rw [hta, hbl, hP]
              rw [hS] at hbl4
              omega)
          (by rw [hta, hP]
              rw [Nat.mul_succ, hS] at hfuel
              rw [hS]
              omega)
        refine ⟨h1, ?_, ?_⟩
        · intro x hx1 hx2
          by_cases hxhi : s.target_addr + SPI_ERASE_SECTOR_SIZE ≤ x
          · apply h2 x
            · rw [hta, hP]
              rw [hS] at hxhi
              omega
            · rw [hta, hbl, hP]
              rw [hS] at hxhi
              omega
          · rw [h3 x (by rw [hta, hP]; rw [hS] at hxhi; omega), hflash]
            show (if s.target_addr ≤ x ∧ x < s.target_addr + SPI_ERASE_SECTOR_SIZE
                  then ram (s.off + (x - s.target_addr))
                  else eraseSector s.flash s.target_addr x) = ram x
            rw [if_pos ⟨hx1, by omega⟩]
            have he2 : s.off + (x - s.target_addr) = x := by omega
            rw [he2]
        · intro x hx
          rw [h3 x (by rw [hta, hP]; omega), hflash]
          show (if s.target_addr ≤ x ∧ x < s.target_addr + SPI_ERASE_SECTOR_SIZE
                then ram (s.off + (x - s.target_addr))
                else eraseSector s.flash s.target_addr x) = s.flash x
          rw [if_neg (by omega)]
          show (if x / SPI_ERASE_SECTOR_SIZE = s.target_addr / SPI_ERASE_SECTOR_SIZE
                then ERASED_BYTE else s.flash x) = s.flash x
          obtain ⟨c, hc⟩ := hdvd
          have hcdiv : s.target_addr / SPI_ERASE_SECTOR_SIZE = c := by
            rw [hc]
            exact Nat.mul_div_cancel_left c (by rw [hS]; omega)
          rw [if_neg ?_]
          intro hdiv
          rw [hcdiv] at hdiv
          have hge := Nat.div_mul_le_self x SPI_ERASE_SECTOR_SIZE
          rw [hdiv] at hge
          rw [hc] at hx
          rw [Nat.mul_comm c SPI_ERASE_SECTOR_SIZE] at hge
          omega

/-- Second-pass skip lemma: if the flash already equals the image on the
whole remaining (sector-aligned) range, the loop issues no command at all. -/
theorem flashLoop_skips_all (ram : Nat → Nat) :
    ∀ (fuel : Nat) (s : LoopState),
      s.bytes_left < UINT32_MOD →
      SPI_ERASE_SECTOR_SIZE ∣ s.bytes_left →
      s.off = s.target_addr →
      (∀ x, s.target_addr ≤ x → x < s.target_addr + s.bytes_left →
        s.flash x = ram x) →
      s.target_addr + s.bytes_left ≤ maxWritableOffset →
      (flashLoop ram fuel s).trace = s.trace := by
  intro fuel
  induction fuel with
  | zero =>
    intro s _ _ _ _ _
    rfl
  | succ fuel ih =>
    intro s hlt hdvdb hofft hagree hcap
    have hS : SPI_ERASE_SECTOR_SIZE = 4096 := rfl
    by_cases hbz : s.bytes_left = 0
    · rw [flashLoop_zero ram _ _ hbz]
    · obtain ⟨m, hmbl⟩ := hdvdb
      have hbl4 : SPI_ERASE_SECTOR_SIZE ≤ s.bytes_left := by
        have hm1 : 1 ≤ m := by
          rcases Nat.eq_zero_or_pos m with h0 | h
          · exfalso
            apply hbz
            rw [h0, Nat.mul_zero] at hmbl
            exact hmbl
          · exact h
        calc SPI_ERASE_SECTOR_SIZE = SPI_ERASE_SECTOR_SIZE * 1 := by omega
        _ ≤ SPI_ERASE_SECTOR_SIZE * m := Nat.mul_le_mul_left _ hm1
        _ = s.bytes_left := hmbl.symm
      have hg : s.bytes_left ≠ 0 ∧ s.target_addr < maxWritableOffset := by
        refine ⟨hbz, ?_⟩
        rw [hS] at hbl4
        omega
      have hmem : memEq s.flash ram s.target_addr s.off SPI_ERASE_SECTOR_SIZE
          = true := by
        apply (memEq_iff _ _ _).2
        intro i hi
        rw [hofft]
        apply hagree
        · omega
        · rw [hS] at hi
          rw [hS] at hbl4
          omega
      rw [flashLoop_succ_skip fuel hg hmem]
      have hsub : sub32 s.bytes_left SPI_ERASE_SECTOR_SIZE
          = s.bytes_left - SPI_ERASE_SECTOR_SIZE := sub32_eq_sub hbl4 hlt
      apply ih
      · exact sub32_lt _ _
      · show SPI_ERASE_SECTOR_SIZE ∣ sub32 s.bytes_left SPI_ERASE_SECTOR_SIZE
        rw [hsub]
        exact Nat.dvd_sub' ⟨m, hmbl⟩ (dvd_refl _)
      · show s.off + SPI_ERASE_SECTOR_SIZE = s.target_addr + SPI_ERASE_SECTOR_SIZE
        omega
      · intro x hx1 hx2
        have hx1b : s.target_addr + SPI_ERASE_SECTOR_SIZE ≤ x := hx1
        have hx2b : x < s.target_addr + SPI_ERASE_SECTOR_SIZE
            + sub32 s.bytes_left SPI_ERASE_SECTOR_SIZE := hx2
        rw [hsub] at hx2b
        show s.flash x = ram x
        apply hagree
        · omega
        · omega
      · show s.target_addr + SPI_ERASE_SECTOR_SIZE
            + sub32 s.bytes_left SPI_ERASE_SECTOR_SIZE ≤ maxWritableOffset
        rw [hsub]
        omega

/-! ## Claim C6 -/

/-- C6 (amended): the programming loop terminates, ending exactly when its
byte counter `bytes_left` reaches zero or `target_addr` reaches 131072
(because of the unsigned wrap-around of C4, a skipped partial final block
means the byte counter never reaches zero and the loop runs on to the
address cap, so "all image bytes consumed" does not always stop it); flash
at or beyond `maxWritableOffset` is never written. -/
theorem c6_loop_exit_and_write_bound (ram flash0 : Nat → Nat) (len : Nat) :
    ((fobooster_program ram flash0 len).bytes_left = 0 ∨
      maxWritableOffset ≤ (fobooster_program ram flash0 len).target_addr) ∧
    ∀ x, maxWritableOffset ≤ x →
      (fobooster_program ram flash0 len).flash x = flash0 x := by
  unfold fobooster_program
  constructor
  · apply flashLoop_exits
    · exact Nat.mod_lt _ (by decide)
    · show maxWritableOffset ≤ 0 + SPI_PROGRAM_PAGE_SIZE * 513
      decide
  · intro x hx
    exact flashLoop_frame_high ram 513 _ (Nat.mod_lt _ (by decide)) (dvd_zero _) x hx

/-- C6 witness: a concrete instance of the amended theorem. -/
theorem c6_loop_exit_and_write_bound_witness :
    ((fobooster_program zeroFlash oneFlash 64).bytes_left = 0 ∨
      maxWritableOffset ≤ (fobooster_program zeroFlash oneFlash 64).target_addr) ∧
    (fobooster_program zeroFlash oneFlash 64).flash 131072 = oneFlash 131072 :=
  ⟨(c6_loop_exit_and_write_bound zeroFlash oneFlash 64).1,
   (c6_loop_exit_and_write_bound zeroFlash oneFlash 64).2 131072 (by decide)⟩

/-- C6 counterexample: with a 16-byte image whose first block already
matches flash, the loop does **not** end when all 16 image bytes are
consumed (which happens at the first, matching block): `bytes_left` wraps,
the loop runs until `target_addr = 131072`, and `current_ptr` is marched
131072 bytes past the start of a 16-byte image. -/
theorem c6_cex_loop_overruns_image_end :
    16 < maxWritableOffset ∧
    (fobooster_program zeroFlash zeroFlash 16).target_addr = maxWritableOffset ∧
    (fobooster_program zeroFlash zeroFlash 16).off = maxWritableOffset ∧
    (fobooster_program zeroFlash zeroFlash 16).bytes_left ≠ 0 := by
  refine ⟨by decide, ?_⟩
  unfold fobooster_program
  rw [flashLoop_succ_skip 512 (by decide)
    ((memEq_iff SPI_ERASE_SECTOR_SIZE 0 0).2 (fun i _ => rfl))]
  obtain ⟨h1, h2, h3⟩ := flashLoop_runs_to_cap zeroFlash 512
    { bytes_left := sub32 (16 % UINT32_MOD) SPI_ERASE_SECTOR_SIZE
      target_addr := 0 + SPI_ERASE_SECTOR_SIZE
      off := 0 + SPI_ERASE_SECTOR_SIZE
      flash := zeroFlash
      trace := [] }
    (sub32_lt _ _)
    ⟨1, by decide⟩
    (by decide)
    (by decide)
    (by decide)
  refine ⟨h1, ?_, ?_⟩
  · rw [h3]
    decide
  · rw [h2]
    decide

/-! ## Claim C4 -/

/-- C4: at a matching block with `0 < bytes_left < SPI_ERASE_SECTOR_SIZE`,
the C subtraction `bytes_left -= SPI_ERASE_SECTOR_SIZE` wraps modulo
`2 ^ 32` to the large non-zero value `bytes_left + (2^32 - 4096)`, so the
loop does not stop at the image end but runs until `target_addr` reaches
131072. -/
theorem c4_partial_block_skip_wraps (ram : Nat → Nat) (s : LoopState) (fuel : Nat)
    (hb0 : s.bytes_left ≠ 0) (hblt : s.bytes_left < SPI_ERASE_SECTOR_SIZE)
    (hdvd : SPI_ERASE_SECTOR_SIZE ∣ s.target_addr)
    (hta : s.target_addr < maxWritableOffset)
    (hmem : memEq s.flash ram s.target_addr s.off SPI_ERASE_SECTOR_SIZE = true)
    (hfuel : 513 ≤ fuel) :
    sub32 s.bytes_left SPI_ERASE_SECTOR_SIZE
        = s.bytes_left + (UINT32_MOD - SPI_ERASE_SECTOR_SIZE) ∧
    UINT32_MOD - SPI_ERASE_SECTOR_SIZE
        ≤ sub32 s.bytes_left SPI_ERASE_SECTOR_SIZE ∧
    (flashLoop ram fuel s).target_addr = maxWritableOffset := by
  have hS : SPI_ERASE_SECTOR_SIZE = 4096 := rfl
  have hM : maxWritableOffset = 131072 := rfl
  have hU : UINT32_MOD = 4294967296 := rfl
  have hwrap : sub32 s.bytes_left SPI_ERASE_SECTOR_SIZE
      = s.bytes_left + (UINT32_MOD - SPI_ERASE_SECTOR_SIZE) :=
    sub32_wrap hblt (by rw [hS, hU]; omega)
  refine ⟨hwrap, by rw [hwrap]; omega, ?_⟩
  obtain ⟨f, rfl⟩ : ∃ f, fuel = f + 1 := ⟨fuel - 1, by omega⟩
  rw [flashLoop_succ_skip f ⟨hb0, hta⟩ hmem]
  obtain ⟨c, hc⟩ := hdvd
  have hub : s.target_addr + SPI_ERASE_SECTOR_SIZE ≤ maxWritableOffset := by
    rw [hc, hS, hM]
    rw [hc, hS] at hta
    rw [hM] at hta
    omega
  obtain ⟨h1, h2, h3⟩ := flashLoop_runs_to_cap ram f
    { s with
      bytes_left := sub32 s.bytes_left SPI_ERASE_SECTOR_SIZE
      target_addr := s.target_addr + SPI_ERASE_SECTOR_SIZE
      off := s.off + SPI_ERASE_SECTOR_SIZE }
    (sub32_lt _ _)
    (Dvd.dvd.add ⟨c, hc⟩ (dvd_refl _))
    hub
    (by show maxWritableOffset - (s.target_addr + SPI_ERASE_SECTOR_SIZE)
          ≤ sub32 s.bytes_left SPI_ERASE_SECTOR_SIZE
        rw [hwrap, hM, hS, hU]
        omega)
    (by show maxWritableOffset ≤ s.target_addr + SPI_ERASE_SECTOR_SIZE
          + SPI_ERASE_SECTOR_SIZE * f
        rw [hM, hS]
        omega)
  exact h1

/-- C4 witness: the wrap and cap-overrun at a concrete state
(16 image bytes left, all-zero flash and image). -/
theorem c4_partial_block_skip_wraps_witness :
    sub32 wrapState.bytes_left SPI_ERASE_SECTOR_SIZE
        = wrapState.bytes_left + (UINT32_MOD - SPI_ERASE_SECTOR_SIZE) ∧
    UINT32_MOD - SPI_ERASE_SECTOR_SIZE
        ≤ sub32 wrapState.bytes_left SPI_ERASE_SECTOR_SIZE ∧
    (flashLoop zeroFlash 513 wrapState).target_addr = maxWritableOffset :=
  c4_partial_block_skip_wraps zeroFlash wrapState 513 (by decide) (by decide)
    (dvd_zero _) (by decide)
    ((memEq_iff SPI_ERASE_SECTOR_SIZE wrapState.target_addr wrapState.off).2
      (fun i _ => rfl))
    (by decide)

/-! ## Claim C5 -/

/-- C5: (1) the erase addresses of a pass are strictly increasing, so each
block address is erased at most once per pass; (2) every erase in the trace
is immediately followed by page programming of that same block; (3) a block
whose flash contents equal the image slice is skipped: the loop advances
past it changing neither the flash nor the command trace. -/
theorem c5_skip_and_erase_discipline (ram flash0 : Nat → Nat) (len : Nat) :
    (eraseAddrs (fobooster_program ram flash0 len).trace).Pairwise (· < ·) ∧
    (∀ a post,
      (FlashOp.erase a :: post) <:+ (fobooster_program ram flash0 len).trace →
      ∃ n rest, post = FlashOp.prog a n :: rest) ∧
    ∀ (s : LoopState) (fuel : Nat),
      s.bytes_left ≠ 0 → s.target_addr < maxWritableOffset →
      memEq s.flash ram s.target_addr s.off SPI_ERASE_SECTOR_SIZE = true →
      flashLoop ram (fuel + 1) s = flashLoop ram fuel
        { s with
          bytes_left := sub32 s.bytes_left SPI_ERASE_SECTOR_SIZE
          target_addr := s.target_addr + SPI_ERASE_SECTOR_SIZE
          off := s.off + SPI_ERASE_SECTOR_SIZE } := by
  refine ⟨?_, ?_, ?_⟩
  · apply flashLoop_erase_once
    · exact Nat.mod_lt _ (by decide)
    · intro a ha
      cases ha
    · exact List.Pairwise.nil
  · obtain ⟨hch, hlast⟩ := flashLoop_erase_followed ram 513
      { bytes_left := len % UINT32_MOD, target_addr := 0, off := 0
        flash := flash0, trace := [] }
      (Nat.mod_lt _ (by decide)) List.chain'_nil (fun a => by simp)
    intro a post hsuf
    obtain ⟨pre, hpre⟩ := hsuf
    rw [show fobooster_program ram flash0 len = flashLoop ram 513
      { bytes_left := len % UINT32_MOD, target_addr := 0, off := 0
        flash := flash0, trace := [] } from rfl] at hpre
    cases post with
    | nil =>
      exfalso
      apply hlast a
      rw [← hpre]
      exact List.getLast?_concat _
    | cons y rest =>
      rw [← hpre] at hch
      have hch2 := (List.chain'_append.1 hch).2.1
      have hR := (List.chain'_cons.1 hch2).1
      obtain ⟨n, hn⟩ := hR a rfl
      exact ⟨n, rest, by rw [hn]⟩
  · intro s fuel h1 h2 h3
    exact flashLoop_succ_skip fuel ⟨h1, h2⟩ h3

/-- C5 witness: the skip step of part (3) at a concrete matching state. -/
theorem c5_skip_and_erase_discipline_witness :
    flashLoop zeroFlash 1 skipState = flashLoop zeroFlash 0
      { skipState with
        bytes_left := sub32 skipState.bytes_left SPI_ERASE_SECTOR_SIZE
        target_addr := skipState.target_addr + SPI_ERASE_SECTOR_SIZE
        off := skipState.off + SPI_ERASE_SECTOR_SIZE } :=
  (c5_skip_and_erase_discipline zeroFlash zeroFlash 4096).2.2 skipState 0
    (by decide) (by decide)
    ((memEq_iff SPI_ERASE_SECTOR_SIZE skipState.target_addr skipState.off).2
      (fun i _ => rfl))

/-! ## Claim C3 -/

/-- C3 (amended): for every image whose length is a multiple of the
erase-sector size (the staging capacity 0x1a000 itself is such a multiple),
programming the same image twice in a row leaves the second pass with an
empty command trace: every block's skip-check succeeds, so no erase and no
program command is issued. -/
theorem c3_idempotent_on_sector_multiples (ram flash0 : Nat → Nat) (len : Nat)
    (hlen : len ≤ CACHED_IMAGE_BYTES) (hmul : len % SPI_ERASE_SECTOR_SIZE = 0) :
    (fobooster_program ram (fobooster_program ram flash0 len).flash len).trace
      = [] := by
  have hC : CACHED_IMAGE_BYTES = 106496 := rfl
  have hU : UINT32_MOD = 4294967296 := rfl
  have hM : maxWritableOffset = 131072 := rfl
  have hlen32 : len % UINT32_MOD = len := by
    apply Nat.mod_eq_of_lt
    rw [hU]
    rw [hC] at hlen
    omega
  obtain ⟨h1, h2, h3⟩ := flashLoop_writes_image ram 513
    { bytes_left := len % UINT32_MOD, target_addr := 0, off := 0
      flash := flash0, trace := [] }
    (Nat.mod_lt _ (by decide))
    (dvd_zero _)
    (by show SPI_ERASE_SECTOR_SIZE ∣ len % UINT32_MOD
        rw [hlen32]
        exact Nat.dvd_of_mod_eq_zero hmul)
    rfl
    (by show 0 + len % UINT32_MOD ≤ maxWritableOffset
        rw [hlen32, hM]
        rw [hC] at hlen
        omega)
    (by show maxWritableOffset ≤ 0 + SPI_ERASE_SECTOR_SIZE * 513
        decide)
  unfold fobooster_program
  apply flashLoop_skips_all
  · exact Nat.mod_lt _ (by decide)
  · show SPI_ERASE_SECTOR_SIZE ∣ len % UINT32_MOD
    rw [hlen32]
    exact Nat.dvd_of_mod_eq_zero hmul
  · rfl
  · intro x hx1 hx2
    have hx2b : x < 0 + len % UINT32_MOD := hx2
    exact h2 x (Nat.zero_le x) hx2b
  · show 0 + len % UINT32_MOD ≤ maxWritableOffset
    rw [hlen32, hM]
    rw [hC] at hlen
    omega

/-- C3 witness: a concrete 4096-byte image programmed twice; the second
pass issues no command. -/
theorem c3_idempotent_on_sector_multiples_witness :
    (fobooster_program oneFlash
      (fobooster_program oneFlash zeroFlash 4096).flash 4096).trace = [] :=
  c3_idempotent_on_sector_multiples oneFlash zeroFlash 4096 (by decide) (by decide)

/-- C3 counterexample: `inpTail` is a validated image (its run reboots),
but its length 100 is not a sector multiple; after a completed first
programming pass, the second pass of the very same staged image issues
commands (the erased `0xff` tail of the final block no longer matches the
zero tail of the staging buffer), refuting the claim that the second pass
performs zero erase/program operations for every validated image. -/
theorem c3_cex_second_pass_reprograms :
    multibootOk (cachedImage inpTail) = true ∧
    inpTail.image_length ≤ CACHED_IMAGE_BYTES ∧
    (fobooster_main H0 inpTail zeroFlash).isRebooted = true ∧
    (fobooster_program (stagedImage inpTail)
      (fobooster_program (stagedImage inpTail) zeroFlash
        inpTail.image_length).flash
      inpTail.image_length).trace ≠ [] := by
  refine ⟨by decide, by decide, by decide, by decide⟩

/-! ## Claim C1 -/

/-- C1: whenever `error(...)` is entered — on any of the four classified
failures — no erase and no program command has been issued: the flash is
exactly the initial flash and both command traces are empty. -/
theorem c1_failure_leaves_flash_untouched (H : List Nat → Nat → Nat)
    (inp : ValidateInput) (flash0 : Nat → Nat)
    (h : (fobooster_main H inp flash0).isFailed = true) :
    (fobooster_main H inp flash0).flashOf = flash0 ∧
    (fobooster_main H inp flash0).progTraceOf = [] ∧
    (fobooster_main H inp flash0).finishTraceOf = [] ∧
    ((fobooster_main H inp flash0).failedCode = error_code.INVALID_IMAGE_SIZE ∨
     (fobooster_main H inp flash0).failedCode = error_code.HASH_MISMATCH ∨
     (fobooster_main H inp flash0).failedCode = error_code.SPI_MISMATCH ∨
     (fobooster_main H inp flash0).failedCode = error_code.MISSING_MULTIBOOT) := by
  unfold fobooster_main at h ⊢
  split_ifs at h ⊢ with h1 h2 h3 h4
  · exact ⟨rfl, rfl, rfl, Or.inl rfl⟩
  · exact ⟨rfl, rfl, rfl, Or.inr (Or.inl rfl)⟩
  · exact ⟨rfl, rfl, rfl, Or.inr (Or.inr (Or.inr rfl))⟩
  · exact ⟨rfl, rfl, rfl, Or.inr (Or.inr (Or.inl rfl))⟩
  · simp [RunResult.isFailed] at h

/-- C1 witness: a concrete failing run (hash mismatch) leaves flash and
traces untouched. -/
theorem c1_failure_leaves_flash_untouched_witness :
    (fobooster_main H0 inpBadHash zeroFlash).flashOf = zeroFlash ∧
    (fobooster_main H0 inpBadHash zeroFlash).progTraceOf = [] ∧
    (fobooster_main H0 inpBadHash zeroFlash).finishTraceOf = [] ∧
    ((fobooster_main H0 inpBadHash zeroFlash).failedCode
        = error_code.INVALID_IMAGE_SIZE ∨
     (fobooster_main H0 inpBadHash zeroFlash).failedCode
        = error_code.HASH_MISMATCH ∨
     (fobooster_main H0 inpBadHash zeroFlash).failedCode
        = error_code.SPI_MISMATCH ∨
     (fobooster_main H0 inpBadHash zeroFlash).failedCode
        = error_code.MISSING_MULTIBOOT) :=
  c1_failure_leaves_flash_untouched H0 inpBadHash zeroFlash (by decide)

/-! ## Claim C7 -/

/-- C7: an image longer than the staging capacity is rejected with
`INVALID_IMAGE_SIZE` — for every hash function, source contents and flash,
so the rejection happens before any copy or non-volatile write. -/
theorem c7_oversize_rejected_before_copy (H : List Nat → Nat → Nat)
    (inp : ValidateInput) (flash0 : Nat → Nat)
    (h : CACHED_IMAGE_BYTES < inp.image_length) :
    (fobooster_main H inp flash0).isFailed = true ∧
    (fobooster_main H inp flash0).failedCode = error_code.INVALID_IMAGE_SIZE ∧
    (fobooster_main H inp flash0).flashOf = flash0 ∧
    (fobooster_main H inp flash0).progTraceOf = [] ∧
    (fobooster_main H inp flash0).finishTraceOf = [] := by
  unfold fobooster_main
  rw [if_pos h]
  exact ⟨rfl, rfl, rfl, rfl, rfl⟩

/-- C7 witness: the concrete oversize input (0x1a001 bytes declared). -/
theorem c7_oversize_rejected_before_copy_witness :
    (fobooster_main H0 inpOversize zeroFlash).isFailed = true ∧
    (fobooster_main H0 inpOversize zeroFlash).failedCode
      = error_code.INVALID_IMAGE_SIZE ∧
    (fobooster_main H0 inpOversize zeroFlash).flashOf = zeroFlash ∧
    (fobooster_main H0 inpOversize zeroFlash).progTraceOf = [] ∧
    (fobooster_main H0 inpOversize zeroFlash).finishTraceOf = [] :=
  c7_oversize_rejected_before_copy H0 inpOversize zeroFlash (by decide)

/-! ## Claim C8 -/

/-- C8: the 32-bit hash is computed over exactly `hash_length` bytes of the
source region with `image_seed` (so it does not depend on `image_length`),
and any candidate whose computed hash differs from the declared hash is
rejected with `HASH_MISMATCH`, flash untouched. -/
theorem c8_hash_checked_over_hash_length (H : List Nat → Nat → Nat)
    (inp inp2 : ValidateInput) (flash0 : Nat → Nat) :
    (inp.image_length ≤ CACHED_IMAGE_BYTES → hashOf H inp ≠ inp.xxhash →
      (fobooster_main H inp flash0).isFailed = true ∧
      (fobooster_main H inp flash0).failedCode = error_code.HASH_MISMATCH ∧
      (fobooster_main H inp flash0).flashOf = flash0 ∧
      (fobooster_main H inp flash0).progTraceOf = []) ∧
    (inp2.src = inp.src → inp2.hash_length = inp.hash_length →
      inp2.image_seed = inp.image_seed → hashOf H inp2 = hashOf H inp) := by
  constructor
  · intro h1 h2
    unfold fobooster_main
    rw [if_neg (by omega), if_pos h2]
    exact ⟨rfl, rfl, rfl, rfl⟩
  · intro hsrc hlen hseed
    unfold hashOf hashBytes
    rw [hsrc, hlen, hseed]

/-- C8 witness: a concrete hash-mismatch rejection. -/
theorem c8_hash_checked_over_hash_length_witness :
    (fobooster_main H0 inpBadHash zeroFlash).isFailed = true ∧
    (fobooster_main H0 inpBadHash zeroFlash).failedCode
      = error_code.HASH_MISMATCH ∧
    (fobooster_main H0 inpBadHash zeroFlash).flashOf = zeroFlash ∧
    (fobooster_main H0 inpBadHash zeroFlash).progTraceOf = [] :=
  (c8_hash_checked_over_hash_length H0 inpBadHash inpBadHash zeroFlash).1
    (by decide) (by decide)

/-! ## Claim C2 -/

/-- C2 (amended): the descriptor check exempts **no** byte: any mismatch
among the first 64 staged bytes — including one at the designated selector
byte, which the reference fixes at `0x04` — fails with
`MISSING_MULTIBOOT`; only an exact 64-byte match passes the check. -/
theorem c2_descriptor_must_match_exactly (H : List Nat → Nat → Nat)
    (inp : ValidateInput) (flash0 : Nat → Nat)
    (h1 : inp.image_length ≤ CACHED_IMAGE_BYTES)
    (h2 : hashOf H inp = inp.xxhash) :
    (∀ i, i < multiboot_reference.length →
      cachedImage inp i ≠ multiboot_reference.getD i 0 →
      (fobooster_main H inp flash0).isFailed = true ∧
      (fobooster_main H inp flash0).failedCode
        = error_code.MISSING_MULTIBOOT) ∧
    ((∀ i, i < multiboot_reference.length →
        cachedImage inp i = multiboot_reference.getD i 0) →
      (fobooster_main H inp flash0).failedCode
        ≠ error_code.MISSING_MULTIBOOT) := by
  constructor
  · intro i hi hne
    have hmb : multibootOk (cachedImage inp) = false := by
      cases hcase : multibootOk (cachedImage inp)
      · rfl
      · exact absurd (multibootOk_iff.1 hcase i hi) hne
    unfold fobooster_main
    rw [if_neg (by omega), if_neg (by simp [h2]), if_pos hmb]
    exact ⟨rfl, rfl⟩
  · intro hall
    have hmb : multibootOk (cachedImage inp) = true := multibootOk_iff.2 hall
    unfold fobooster_main
    rw [if_neg (by omega), if_neg (by simp [h2]), if_neg (by simp [hmb])]
    by_cases hspi : inp.spi_id ≠ inp.read_spi_id
    · rw [if_pos hspi]
      intro hco
      cases hco
    · rw [if_neg hspi]
      intro hco
      cases hco

/-- C2 witness: an all-zero image mismatches the reference at offset 0 and
is rejected with `MISSING_MULTIBOOT`. -/
theorem c2_descriptor_must_match_exactly_witness :
    (fobooster_main H0 inpZeroSrc zeroFlash).isFailed = true ∧
    (fobooster_main H0 inpZeroSrc zeroFlash).failedCode
      = error_code.MISSING_MULTIBOOT :=
  (c2_descriptor_must_match_exactly H0 inpZeroSrc zeroFlash (by decide)
    (by decide)).1 0 (by decide) (by decide)

/-- C2 counterexample: an image that differs from the reference descriptor
**only** at the designated selector byte (offset 9) nevertheless fails the
descriptor check with `MISSING_MULTIBOOT` — the check compares all 64
bytes, including byte 9, so the claim's exemption of the selector byte is
wrong. -/
theorem c2_cex_selector_byte_not_exempt :
    ((List.range multiboot_reference.length).all fun i =>
      (i == 9) || (cachedImage inpSelector i == multiboot_reference.getD i 0))
        = true ∧
    cachedImage inpSelector 9 ≠ multiboot_reference.getD 9 0 ∧
    (fobooster_main H0 inpSelector zeroFlash).isFailed = true ∧
    (fobooster_main H0 inpSelector zeroFlash).failedCode
      = error_code.MISSING_MULTIBOOT := by
  refine ⟨by decide, by decide, by decide, by decide⟩

/-! ## Claim C9 -/

/-- C9: after the descriptor compare succeeds, exactly the designated byte
(offset 9) of the staged copy is written (with `0x04`); every other staged
byte is unchanged by the patch, the programming pass reads the patched
staged copy, and on a descriptor failure nothing is programmed at all (the
patch sits after the compare). The original source `inp.src` is a pure
input and is never written. -/
theorem c9_patch_selector_byte (H : List Nat → Nat → Nat)
    (inp : ValidateInput) (flash0 : Nat → Nat)
    (h1 : inp.image_length ≤ CACHED_IMAGE_BYTES)
    (h2 : hashOf H inp = inp.xxhash)
    (h3 : multibootOk (cachedImage inp) = true) :
    stagedImage inp 9 = 0x04 ∧
    (∀ i, i ≠ 9 → stagedImage inp i = cachedImage inp i) ∧
    (inp.spi_id = inp.read_spi_id →
      (fobooster_main H inp flash0).progTraceOf
        = (fobooster_program (stagedImage inp) flash0 inp.image_length).trace) ∧
    ∀ (inp2 : ValidateInput) (fl2 : Nat → Nat),
      multibootOk (cachedImage inp2) = false →
      inp2.image_length ≤ CACHED_IMAGE_BYTES →
      hashOf H inp2 = inp2.xxhash →
      (fobooster_main H inp2 fl2).flashOf = fl2 ∧
      (fobooster_main H inp2 fl2).progTraceOf = [] := by
  refine ⟨rfl, ?_, ?_, ?_⟩
  · intro i hi
    unfold stagedImage
    rw [if_neg hi]
  · intro hspi
    unfold fobooster_main
    rw [if_neg (by omega), if_neg (by simp [h2]), if_neg (by simp [h3]),
      if_neg (by simp [hspi])]
    rfl
  · intro inp2 fl2 hmb2 hlen2 hh2
    unfold fobooster_main
    rw [if_neg (by omega), if_neg (by simp [hh2]), if_pos hmb2]
    exact ⟨rfl, rfl⟩

/-- C9 witness: at the concrete well-formed input, the staged byte 9 is
`0x04`, byte 0 is unchanged, and the programming pass reads the staged
copy. -/
theorem c9_patch_selector_byte_witness :
    stagedImage inpGood 9 = 0x04 ∧
    stagedImage inpGood 0 = cachedImage inpGood 0 ∧
    (fobooster_main H0 inpGood oneFlash).progTraceOf
      = (fobooster_program (stagedImage inpGood) oneFlash
          inpGood.image_length).trace := by
  obtain ⟨w1, w2, w3, _⟩ := c9_patch_selector_byte H0 inpGood oneFlash
    (by decide) (by decide) (by decide)
  exact ⟨w1, w2 0 (by decide), w3 (by decide)⟩

/-! ## Claim C10 -/

/-- C10: on the success path, after the programming loop, the handoff runs
exactly once: it writes a zero byte to the primary boot-selector at flash
address 9, erases the 4096-byte sector holding Booster (0x5a000), in that
order, and writes `0xac | 2 = 0xae` to the reboot control register,
selecting boot image slot 2. -/
theorem c10_reboot_handoff (H : List Nat → Nat → Nat)
    (inp : ValidateInput) (flash0 : Nat → Nat)
    (h : (fobooster_main H inp flash0).isRebooted = true) :
    (fobooster_main H inp flash0).ctrlOf = 0xae ∧
    (fobooster_main H inp flash0).finishTraceOf
      = [FlashOp.prog 9 1, FlashOp.erase 0x5a000] ∧
    (fobooster_main H inp flash0).flashOf 9 = 0 ∧
    ∀ x, 0x5a000 ≤ x → x < 0x5b000 →
      (fobooster_main H inp flash0).flashOf x = ERASED_BYTE := by
  unfold fobooster_main at h ⊢
  split_ifs at h ⊢ with h1 h2 h3 h4
  · simp [RunResult.isRebooted] at h
  · simp [RunResult.isRebooted] at h
  · simp [RunResult.isRebooted] at h
  · simp [RunResult.isRebooted] at h
  · refine ⟨rfl, rfl, ?_, ?_⟩
    · show eraseSector
        (fun x => if x = 9 then 0
          else (fobooster_program (stagedImage inp) flash0
            inp.image_length).flash x) 0x5a000 9 = 0
      unfold eraseSector
      rw [if_neg (by decide)]
      simp
    · intro x hx1 hx2
      show eraseSector
        (fun y => if y = 9 then 0
          else (fobooster_program (stagedImage inp) flash0
            inp.image_length).flash y) 0x5a000 x = ERASED_BYTE
      unfold eraseSector
      rw [if_pos ?_]
      have hlo : (90 : Nat) * SPI_ERASE_SECTOR_SIZE = 368640 := rfl
      have hhi : (90 + 1 : Nat) * SPI_ERASE_SECTOR_SIZE = 372736 := rfl
      have hxd : x / SPI_ERASE_SECTOR_SIZE = 90 :=
        Nat.div_eq_of_lt_le (by show 90 * SPI_ERASE_SECTOR_SIZE ≤ x; omega)
          (by show x < (90 + 1) * SPI_ERASE_SECTOR_SIZE; omega)
      rw [hxd]
      decide

/-- C10 witness: the handoff facts at a concrete successful run. -/
theorem c10_reboot_handoff_witness :
    (fobooster_main H0 inpGood oneFlash).ctrlOf = 0xae ∧
    (fobooster_main H0 inpGood oneFlash).finishTraceOf
      = [FlashOp.prog 9 1, FlashOp.erase 0x5a000] ∧
    (fobooster_main H0 inpGood oneFlash).flashOf 9 = 0 ∧
    (fobooster_main H0 inpGood oneFlash).flashOf 0x5a000 = ERASED_BYTE := by
  obtain ⟨w1, w2, w3, w4⟩ := c10_reboot_handoff H0 inpGood oneFlash (by decide)
  exact ⟨w1, w2, w3, w4 0x5a000 (by decide) (by decide)⟩
